import Mathlib

set_option maxRecDepth 100000

/-!
Verification of the AI-assisted strategy generation / validation pipeline
(`src/services/strategy/generate.py`).

The embedding below translates the pipeline's pure logic into Lean:
  * `generate_mock_strategy` — `StrategyGenerator._generate_mock_strategy`,
  * `extractCode` / `generate_strategy` — `StrategyGenerator.generate_strategy`,
    with the external client's behaviour made an explicit parameter
    (`none` = no client configured, `some (Except.error e)` = the request or
    payload extraction raised, `some (Except.ok t)` = the first text payload),
  * `validate_strategy` — `StrategyGenerator.validate_strategy`, with the
    pylint invocation's outcome made an explicit `LintEnv` parameter,
  * `save_strategy` — `StrategyGenerator.save_strategy`, with the file system
    modelled as the list of (path, contents) writes it performs,
  * `runBatchFrom` / `processItem` — the per-prompt loop of `main`.
-/

/-- Substring test on character lists, mirroring Python's `in` operator on
strings: `needle` occurs in `haystack` iff it is a prefix of some suffix
(and the empty needle occurs in everything). -/
def listContains (needle : List Char) : List Char → Bool
  | [] => needle.isEmpty
  | c :: rest => needle.isPrefixOf (c :: rest) || listContains needle rest

/-- Python's `needle in haystack` for strings. -/
def strContains (haystack needle : String) : Bool :=
  listContains needle.data haystack.data

/-- The dictionary returned by `generate_strategy` and
`_generate_mock_strategy` (keys `code`, `description`, `language`,
`timestamp`). -/
structure Strategy where
  code : String
  description : String
  language : String
  timestamp : String
deriving DecidableEq

/-- The report dictionary built by `validate_strategy`
(keys `valid`, `errors`, `warnings`, `score`). -/
structure ValidationReport where
  valid : Bool
  errors : List String
  warnings : List String
  score : Int
deriving DecidableEq

/-- Text of the python fallback template up to the `{description}`
placeholder that `.format` fills with the prompt. -/
def pythonMockHead : String := "from AlgorithmImports import *\n\nclass GeneratedStrategy(QCAlgorithm):\n    \"\"\"\n    Auto-generated trading strategy\n    Description: "

/-- Text of the python fallback template after the `{description}`
placeholder. -/
def pythonMockTail : String := "\n    \"\"\"\n\n    def Initialize(self):\n        self.SetStartDate(2023, 1, 1)\n        self.SetEndDate(2024, 1, 1)\n        self.SetCash(100000)\n\n        # Add equity\n        self.symbol = self.AddEquity(\"SPY\", Resolution.Daily).Symbol\n\n        # Set up indicators\n        self.sma_fast = self.SMA(self.symbol, 20, Resolution.Daily)\n        self.sma_slow = self.SMA(self.symbol, 50, Resolution.Daily)\n\n    def OnData(self, data):\n        if not self.sma_fast.IsReady or not self.sma_slow.IsReady:\n            return\n\n        # Simple moving average crossover strategy\n        if self.sma_fast.Current.Value > self.sma_slow.Current.Value:\n            if not self.Portfolio[self.symbol].Invested:\n                self.SetHoldings(self.symbol, 1.0)\n        else:\n            if self.Portfolio[self.symbol].Invested:\n                self.Liquidate(self.symbol)\n"

/-- Text of the C# fallback template up to the `{prompt}` interpolation. -/
def csharpMockHead : String := "// Auto-generated C# strategy\n// Description: "

/-- Text of the C# fallback template after the `{prompt}` interpolation
(with the f-string's doubled braces collapsed to literal braces). -/
def csharpMockTail : String := "\n\nnamespace QuantConnect.Algorithm.CSharp\n\x7b\n    public class GeneratedStrategy : QCAlgorithm\n    \x7b\n        private Symbol _symbol;\n\n        public override void Initialize()\n        \x7b\n            SetStartDate(2023, 1, 1);\n            SetEndDate(2024, 1, 1);\n            SetCash(100000);\n\n            _symbol = AddEquity(\"SPY\", Resolution.Daily).Symbol;\n        \x7d\n\n        public override void OnData(Slice data)\n        \x7b\n            if (!Portfolio[_symbol].Invested)\n            \x7b\n                SetHoldings(_symbol, 1.0);\n            \x7d\n        \x7d\n    \x7d\n\x7d"

/-- `StrategyGenerator._generate_mock_strategy`: the deterministic fallback.
`now` stands for `datetime.now().isoformat()`. -/
def generate_mock_strategy (prompt language now : String) : Strategy :=
  if language == "python" then
    { code := pythonMockHead ++ prompt ++ pythonMockTail
      description := prompt
      language := language
      timestamp := now }
  else
    { code := csharpMockHead ++ prompt ++ csharpMockTail
      description := prompt
      language := language
      timestamp := now }

/-- The fence marker looked for in the service's response text. -/
def codeFence : String := "```"

/-- Python's `s.split(sep)` for a non-empty separator, with explicit fuel so
the recursion is structural: scanning left to right, each occurrence of `sep`
ends the current piece and is consumed. -/
def listSplitOnFuel (sep : List Char) : Nat → List Char → List (List Char)
  | 0, rest => [rest]
  | Nat.succ fuel, rest =>
    match rest with
    | [] => [[]]
    | c :: tail =>
      if sep.isPrefixOf (c :: tail) then
        [] :: listSplitOnFuel sep fuel (List.drop (sep.length - 1) tail)
      else
        match listSplitOnFuel sep fuel tail with
        | [] => [[c]]
        | piece :: pieces => (c :: piece) :: pieces

/-- Python's `s.split(sep)` on character lists (`sep` non-empty in every use
below; one fuel unit per character suffices since a match consumes `sep`). -/
def listSplitOn (sep l : List Char) : List (List Char) :=
  if sep.isEmpty then [l] else listSplitOnFuel sep l.length l

/-- Python's `sep.join(pieces)` on character lists. -/
def listIntercalate (sep : List Char) : List (List Char) → List Char
  | [] => []
  | [piece] => piece
  | piece :: next :: rest => piece ++ sep ++ listIntercalate sep (next :: rest)

/-- Python's `s.strip()` over the ASCII whitespace that can occur here: drop
leading and trailing whitespace characters. -/
def trimAsciiWs (l : List Char) : List Char :=
  ((l.dropWhile Char.isWhitespace).reverse.dropWhile Char.isWhitespace).reverse

/-- The response-text cleanup in `generate_strategy`: take the first fenced
block if a fence is present, drop a leading bare language tag, then strip.
Implemented over character lists so it evaluates by kernel reduction. -/
def extractCode (text : String) : String :=
  let code :=
    if strContains text codeFence then
      let fenced := (listSplitOn codeFence.data text.data).getD 1 []
      if "python".data.isPrefixOf fenced || "csharp".data.isPrefixOf fenced then
        listIntercalate "\n".data (List.drop 1 (listSplitOn "\n".data fenced))
      else fenced
    else text.data
  String.mk (trimAsciiWs code)

/-- `StrategyGenerator.generate_strategy`. The `client` argument captures the
environment: `none` models `self.client is None`; `some (Except.error e)`
models an exception raised while calling the service or extracting the
payload (caught and routed to the fallback); `some (Except.ok t)` models a
successful call whose first content block has text `t`. -/
def generate_strategy (client : Option (Except String String))
    (prompt language now : String) : Strategy :=
  match client with
  | none => generate_mock_strategy prompt language now
  | some (Except.error _) => generate_mock_strategy prompt language now
  | some (Except.ok text) =>
    { code := extractCode text
      description := prompt
      language := language
      timestamp := now }

/-- Outcome of the pylint invocation attempted by `validate_strategy`:
`writeFailed` — `temp_file.write_text` raised; `toolMissing` —
`subprocess.run` raised (pylint not installed); `timeout` — the 10s bound
expired; `ran rc` — pylint completed with return code `rc`. -/
inductive LintEnv where
  | writeFailed
  | toolMissing
  | timeout
  | ran (returncode : Int)
deriving DecidableEq

/-- Warnings contributed by the pylint step: only a completed run with a
non-zero return code appends `"Linting issues found"`; every exception path
hits `except Exception: pass`. -/
def lintWarnings (env : LintEnv) : List String :=
  match env with
  | LintEnv.ran rc => if rc != 0 then ["Linting issues found"] else []
  | _ => []

/-- The advisory lint capability is disabled or unavailable (every path on
which pylint produced no result). -/
def lintUnavailable (env : LintEnv) : Prop :=
  env = LintEnv.writeFailed ∨ env = LintEnv.toolMissing ∨ env = LintEnv.timeout

/-- Whether `temp_validate.py` exists when the `finally` block runs: it was
written unless `write_text` itself raised. -/
def tempWrittenInTry (env : LintEnv) : Bool :=
  match env with
  | LintEnv.writeFailed => false
  | _ => true

/-- Whether the temporary file still exists after `validate_strategy`
returns: the `finally` block unlinks it when it exists, and it is only ever
created on the python branch. -/
def lintTempExistsAfter (language : String) (env : LintEnv) : Bool :=
  if language == "python" then
    if tempWrittenInTry env then false else tempWrittenInTry env
  else false

/-- `StrategyGenerator.validate_strategy`: rule checks per language, then the
best-effort pylint step (python only), whose outcome is `env`. -/
def validate_strategy (code language : String) (env : LintEnv) : ValidationReport :=
  if language == "python" then
    let importsOk := strContains code "AlgorithmImports" || strContains code "QCAlgorithm"
    let initOk := strContains code "def Initialize("
    let onDataOk := strContains code "def OnData("
    { valid := importsOk && initOk
      errors := (if importsOk then [] else ["Missing QuantConnect imports"])
        ++ (if initOk then [] else ["Missing Initialize method"])
      warnings := (if onDataOk then [] else ["Missing OnData method"]) ++ lintWarnings env
      score := if onDataOk then 100 else 80 }
  else if language == "csharp" then
    let qcOk := strContains code "QCAlgorithm"
    let initOk := strContains code "Initialize()"
    { valid := qcOk && initOk
      errors := (if qcOk then [] else ["Missing QCAlgorithm base class"])
        ++ (if initOk then [] else ["Missing Initialize method"])
      warnings := []
      score := 100 }
  else
    { valid := true, errors := [], warnings := [], score := 100 }

/-- `self.output_dir`. -/
def outputDir : String := "/app/generated"

/-- The metadata sidecar written by `save_strategy` (the four fields
serialized with `json.dumps`; serialization is injective on them, so the
sidecar is modelled structurally). -/
structure SavedMeta where
  description : String
  language : String
  timestamp : String
  filename : String
deriving DecidableEq

/-- Contents of a file written by `save_strategy`: either raw source text or
the metadata sidecar. -/
inductive FileContent where
  | text (contents : String)
  | meta (m : SavedMeta)
deriving DecidableEq

/-- `StrategyGenerator.save_strategy`: returns the source file's path and the
list of (path, contents) writes performed, in order. -/
def save_strategy (strategy : Strategy) (filename : String) :
    String × List (String × FileContent) :=
  let ext := if strategy.language == "python" then "py" else "cs"
  let filepath := outputDir ++ "/" ++ filename ++ "." ++ ext
  let metaPath := outputDir ++ "/" ++ filename ++ ".json"
  (filepath,
    [(filepath, FileContent.text strategy.code),
     (metaPath, FileContent.meta
       { description := strategy.description
         language := strategy.language
         timestamp := strategy.timestamp
         filename := filepath })])

/-- Per-prompt outcome recorded by the driver: a save (with the validation
score reported) or a rejection carrying the collected errors. -/
inductive Outcome where
  | saved (path : String) (score : Int)
  | rejected (errors : List String)
deriving DecidableEq

/-- One iteration of the loop in `main`: generate (always python), validate,
and either save (index `i` names the file `strategy_i`) or reject. Returns
the outcome and the writes performed for this item. -/
def processItem (client : Option (Except String String)) (env : LintEnv)
    (now : String) (i : Nat) (prompt : String) :
    Outcome × List (String × FileContent) :=
  let strategy := generate_strategy client prompt "python" now
  let validation := validate_strategy strategy.code strategy.language env
  if validation.valid then
    let saved := save_strategy strategy ("strategy_" ++ toString i)
    (Outcome.saved saved.1 validation.score, saved.2)
  else
    (Outcome.rejected validation.errors, [])

/-- The batch loop of `main` starting at index `i` (the source enumerates
from 1): each prompt is processed in order with its own client response and
lint outcome, and the writes accumulate. -/
def runBatchFrom (client : Nat → Option (Except String String))
    (env : Nat → LintEnv) (now : String) (i : Nat) :
    List String → List Outcome × List (String × FileContent)
  | [] => ([], [])
  | prompt :: rest =>
    let item := processItem (client i) (env i) now i prompt
    let others := runBatchFrom client env now (i + 1) rest
    (item.1 :: others.1, item.2 ++ others.2)

/-- `main`'s batch run over its prompt list (`enumerate(prompts, 1)`). -/
def runBatch (client : Nat → Option (Except String String))
    (env : Nat → LintEnv) (now : String) (prompts : List String) :
    List Outcome × List (String × FileContent) :=
  runBatchFrom client env now 1 prompts

/-- The prompts enumerated with their 1-based batch indices. -/
def enumBatch (i : Nat) : List String → List (Nat × String)
  | [] => []
  | p :: rest => (i, p) :: enumBatch (i + 1) rest

/-! ### Helper lemmas -/

theorem listContains_of_empty_needle (h : List Char) : listContains [] h = true := by
  induction h with
  | nil => rfl
  | cons c rest ih => simp [listContains, List.isPrefixOf]

theorem isPrefixOf_append_of_isPrefixOf (n h t : List Char)
    (hp : n.isPrefixOf h = true) : n.isPrefixOf (h ++ t) = true := by
  induction n generalizing h with
  | nil => simp [List.isPrefixOf]
  | cons a as ih =>
    cases h with
    | nil => simp [List.isPrefixOf] at hp
    | cons b bs =>
      simp only [List.cons_append, List.isPrefixOf, Bool.and_eq_true] at hp ⊢
      exact ⟨hp.1, ih bs hp.2⟩

theorem listContains_append_left (n h t : List Char)
    (hc : listContains n h = true) : listContains n (h ++ t) = true := by
  induction h with
  | nil =>
    cases n with
    | nil => exact listContains_of_empty_needle t
    | cons a as => simp [listContains, List.isEmpty] at hc
  | cons c rest ih =>
    simp only [listContains, Bool.or_eq_true] at hc
    rcases hc with hc | hc
    · simp only [List.cons_append, listContains, Bool.or_eq_true]
      exact Or.inl (isPrefixOf_append_of_isPrefixOf n (c :: rest) t hc)
    · simp only [List.cons_append, listContains, Bool.or_eq_true]
      exact Or.inr (ih hc)

theorem listContains_append_right (n h t : List Char)
    (hc : listContains n t = true) : listContains n (h ++ t) = true := by
  induction h with
  | nil => simpa using hc
  | cons c rest ih =>
    simp only [List.cons_append, listContains, Bool.or_eq_true]
    exact Or.inr ih

theorem strContains_append_left (a b n : String)
    (h : strContains a n = true) : strContains (a ++ b) n = true := by
  unfold strContains at h ⊢
  rw [String.data_append]
  exact listContains_append_left n.data a.data b.data h

theorem strContains_append_right (a b n : String)
    (h : strContains b n = true) : strContains (a ++ b) n = true := by
  unfold strContains at h ⊢
  rw [String.data_append]
  exact listContains_append_right n.data a.data b.data h

theorem lintWarnings_of_unavailable (env : LintEnv) (h : lintUnavailable env) :
    lintWarnings env = [] := by
  rcases h with h | h | h <;> subst h <;> rfl

theorem string_beq_false_of_length_ne (a b : String) (h : a.length ≠ b.length) :
    (a == b) = false := by
  cases hb : a == b
  · rfl
  · exact absurd (congrArg String.length (eq_of_beq hb)) h

/-! ### Claims -/

/-- Claim C1, counterexample: when the external service succeeds but returns
empty text, `generate_strategy` keeps the empty text rather than falling back,
so the returned `code` is empty although the fallback's `code` is non-empty. -/
theorem c1_counterexample :
    (generate_strategy (some (Except.ok "")) "p" "python" "t").code = ""
      ∧ 0 < (generate_mock_strategy "p" "python" "t").code.length := by
  constructor
  · decide
  · decide

/-- Claim C1 (amended): `generate_strategy` is total, and on the two failure
paths — no client configured, or an exception during the request/extraction —
it returns exactly the fallback artifact, whose `code` is non-empty for every
prompt and language; only a successful service call returning empty text can
yield an empty `code`. -/
theorem c1_fallback_nonempty (prompt language now err : String) :
    generate_strategy none prompt language now
        = generate_mock_strategy prompt language now
      ∧ generate_strategy (some (Except.error err)) prompt language now
        = generate_mock_strategy prompt language now
      ∧ 0 < (generate_mock_strategy prompt language now).code.length := by
  refine ⟨rfl, rfl, ?_⟩
  by_cases h : language == "python"
  · have hh : 0 < pythonMockHead.length := by decide
    simp only [generate_mock_strategy, h, if_true, String.length_append]
    omega
  · have hh : 0 < csharpMockHead.length := by decide
    simp only [generate_mock_strategy, h, if_false, Bool.false_eq_true,
      String.length_append]
    omega

/-- Claim C2: with no client configured, `generate_strategy(prompt, python)`
returns the fallback source, which contains the `def Initialize(` and
`def OnData(` markers, and validating it with the lint capability unavailable
yields a fully valid report with score 100. -/
theorem c2_mock_valid (prompt now : String) (env : LintEnv)
    (henv : lintUnavailable env) :
    strContains (generate_strategy none prompt "python" now).code
        "def Initialize(" = true
      ∧ strContains (generate_strategy none prompt "python" now).code
          "def OnData(" = true
      ∧ validate_strategy (generate_strategy none prompt "python" now).code
          (generate_strategy none prompt "python" now).language env
        = { valid := true, errors := [], warnings := [], score := 100 } := by
  have hcode : (generate_strategy none prompt "python" now).code
      = pythonMockHead ++ prompt ++ pythonMockTail := rfl
  have hlang : (generate_strategy none prompt "python" now).language = "python" := rfl
  have hImp : strContains (pythonMockHead ++ prompt ++ pythonMockTail)
      "AlgorithmImports" = true :=
    strContains_append_left _ _ _ (strContains_append_left _ _ _ (by decide))
  have hInit : strContains (pythonMockHead ++ prompt ++ pythonMockTail)
      "def Initialize(" = true :=
    strContains_append_right _ _ _ (by decide)
  have hData : strContains (pythonMockHead ++ prompt ++ pythonMockTail)
      "def OnData(" = true :=
    strContains_append_right _ _ _ (by decide)
  constructor
  · rw [hcode]; exact hInit
  constructor
  · rw [hcode]; exact hData
  · rw [hcode, hlang]
    simp [validate_strategy, hImp, hInit, hData, lintWarnings_of_unavailable env henv]

/-- Claim C2, witness: the statement instantiated at a concrete prompt with
the lint tool missing. -/
theorem c2_mock_valid_witness :
    lintUnavailable LintEnv.toolMissing
      ∧ (strContains (generate_strategy none "x" "python" "t").code
            "def Initialize(" = true
          ∧ strContains (generate_strategy none "x" "python" "t").code
              "def OnData(" = true
          ∧ validate_strategy (generate_strategy none "x" "python" "t").code
              (generate_strategy none "x" "python" "t").language LintEnv.toolMissing
            = { valid := true, errors := [], warnings := [], score := 100 }) :=
  ⟨Or.inr (Or.inl rfl), c2_mock_valid "x" "t" LintEnv.toolMissing (Or.inr (Or.inl rfl))⟩

/-- Claim C3, counterexample: a report can carry the `"Linting issues found"`
warning with no score deduction at all — the lint warning is appended without
touching `score`, so the score does not decrease per warning present. -/
theorem c3_counterexample :
    (validate_strategy "AlgorithmImports\ndef Initialize(\ndef OnData("
        "python" (LintEnv.ran 1)).warnings = ["Linting issues found"]
      ∧ (validate_strategy "AlgorithmImports\ndef Initialize(\ndef OnData("
          "python" (LintEnv.ran 1)).score = 100 := by
  constructor
  · decide
  · decide

/-- Claim C3 (amended): for python sources, only the missing-`OnData` warning
deducts (20 points, at most once); the linting warning is appended with no
deduction; and `valid` is determined by the two error rules alone, so
appending warnings never invalidates. Other dialects produce no warnings. -/
theorem c3_warning_effects (code : String) (env : LintEnv) :
    (validate_strategy code "python" env).score
        = (if strContains code "def OnData(" then (100 : Int) else 80)
      ∧ (validate_strategy code "python" env).valid
        = ((strContains code "AlgorithmImports" || strContains code "QCAlgorithm")
            && strContains code "def Initialize(")
      ∧ (validate_strategy code "python" env).warnings
        = (if strContains code "def OnData(" then [] else ["Missing OnData method"])
            ++ lintWarnings env := by
  refine ⟨?_, ?_, ?_⟩ <;> simp [validate_strategy]

/-- Claim C4, counterexample: a python source containing `def Initialize(`
and lacking `def OnData(` need not validate — without the imports marker the
report is invalid (score 80, one warning, but `valid = false`). -/
theorem c4_counterexample :
    strContains "def Initialize(" "def Initialize(" = true
      ∧ strContains "def Initialize(" "def OnData(" = false
      ∧ lintUnavailable LintEnv.toolMissing
      ∧ (validate_strategy "def Initialize(" "python" LintEnv.toolMissing).valid
          = false
      ∧ (validate_strategy "def Initialize(" "python" LintEnv.toolMissing).errors
          = ["Missing QuantConnect imports"] := by
  refine ⟨by decide, by decide, Or.inr (Or.inl rfl), by decide, by decide⟩

/-- Claim C4 (amended): a python source that contains the imports marker
(`AlgorithmImports` or `QCAlgorithm`) and `def Initialize(` but lacks
`def OnData(`, validated with the lint capability unavailable, yields
`valid = true`, score 80, and exactly the one missing-`OnData` warning. -/
theorem c4_missing_ondata (code : String) (env : LintEnv)
    (henv : lintUnavailable env)
    (himp : (strContains code "AlgorithmImports" || strContains code "QCAlgorithm")
        = true)
    (hinit : strContains code "def Initialize(" = true)
    (hdata : strContains code "def OnData(" = false) :
    validate_strategy code "python" env
      = { valid := true, errors := []
          warnings := ["Missing OnData method"], score := 80 } := by
  simp [validate_strategy, himp, hinit, hdata, lintWarnings_of_unavailable env henv]

/-- Claim C4, witness: the amended statement instantiated at a concrete
source with the lint tool timing out. -/
theorem c4_missing_ondata_witness :
    validate_strategy "QCAlgorithm def Initialize(" "python" LintEnv.timeout
      = { valid := true, errors := []
          warnings := ["Missing OnData method"], score := 80 } :=
  c4_missing_ondata "QCAlgorithm def Initialize(" LintEnv.timeout
    (Or.inr (Or.inr rfl)) (by decide) (by decide) (by decide)

/-- Claim C5: relative to any unavailable-lint run, an arbitrary lint outcome
never changes `valid`, `errors` or `score`, appends at most the single
generic `"Linting issues found"` warning, and the temporary file is gone on
every exit path (for non-python languages it is never created). -/
theorem c5_lint_advisory (code language : String) (env : LintEnv) :
    (validate_strategy code language env).valid
        = (validate_strategy code language LintEnv.toolMissing).valid
      ∧ (validate_strategy code language env).errors
        = (validate_strategy code language LintEnv.toolMissing).errors
      ∧ (validate_strategy code language env).score
        = (validate_strategy code language LintEnv.toolMissing).score
      ∧ ((validate_strategy code language env).warnings
            = (validate_strategy code language LintEnv.toolMissing).warnings
          ∨ (validate_strategy code language env).warnings
            = (validate_strategy code language LintEnv.toolMissing).warnings
                ++ ["Linting issues found"])
      ∧ lintTempExistsAfter language env = false := by
  by_cases hl : language == "python"
  · cases env with
    | writeFailed =>
      simp [validate_strategy, lintWarnings, lintTempExistsAfter, tempWrittenInTry, hl]
    | toolMissing =>
      simp [validate_strategy, lintWarnings, lintTempExistsAfter, tempWrittenInTry, hl]
    | timeout =>
      simp [validate_strategy, lintWarnings, lintTempExistsAfter, tempWrittenInTry, hl]
    | ran rc =>
      by_cases hrc : rc != 0 <;>
        simp [validate_strategy, lintWarnings, lintTempExistsAfter, tempWrittenInTry,
          hl, hrc]
  · cases env <;>
      simp [validate_strategy, lintWarnings, lintTempExistsAfter, tempWrittenInTry, hl]

/-- Claim C6: the driver's batch run is the independent, in-order composition
of per-item runs (outcome list = map over the enumerated prompts, write list
= concatenation of per-item writes), and each item either rejects — carrying
the collected errors and performing no write — or saves via the persistence
writer; no item's result influences any other's. -/
theorem c6_driver (client : Nat → Option (Except String String))
    (env : Nat → LintEnv) (now : String) (i : Nat) (prompts : List String) :
    (runBatchFrom client env now i prompts).1
        = (enumBatch i prompts).map
            (fun item => (processItem (client item.1) (env item.1) now item.1 item.2).1)
      ∧ (runBatchFrom client env now i prompts).2
        = ((enumBatch i prompts).map
            (fun item => (processItem (client item.1) (env item.1) now item.1 item.2).2)).flatten
      ∧ ∀ (c : Option (Except String String)) (e : LintEnv) (n : String)
          (j : Nat) (p : String),
          ((validate_strategy (generate_strategy c p "python" n).code
              (generate_strategy c p "python" n).language e).valid = false
            ∧ (processItem c e n j p).1
              = Outcome.rejected
                  (validate_strategy (generate_strategy c p "python" n).code
                    (generate_strategy c p "python" n).language e).errors
            ∧ (processItem c e n j p).2 = [])
          ∨ ((validate_strategy (generate_strategy c p "python" n).code
              (generate_strategy c p "python" n).language e).valid = true
            ∧ (processItem c e n j p).1
              = Outcome.saved
                  (save_strategy (generate_strategy c p "python" n)
                    ("strategy_" ++ toString j)).1
                  (validate_strategy (generate_strategy c p "python" n).code
                    (generate_strategy c p "python" n).language e).score
            ∧ (processItem c e n j p).2
              = (save_strategy (generate_strategy c p "python" n)
                  ("strategy_" ++ toString j)).2) := by
  refine ⟨?_, ?_, ?_⟩
  · induction prompts generalizing i with
    | nil => rfl
    | cons p rest ih => simp [runBatchFrom, enumBatch, ih]
  · induction prompts generalizing i with
    | nil => rfl
    | cons p rest ih => simp [runBatchFrom, enumBatch, ih]
  · intro c e n j p
    by_cases hv : (validate_strategy (generate_strategy c p "python" n).code
        (generate_strategy c p "python" n).language e).valid
    · exact Or.inr ⟨hv, by simp [processItem, hv], by simp [processItem, hv]⟩
    · have hv2 : (validate_strategy (generate_strategy c p "python" n).code
          (generate_strategy c p "python" n).language e).valid = false := by
        simpa using hv
      exact Or.inl ⟨hv2, by simp [processItem, hv2], by simp [processItem, hv2]⟩

/-- Claim C7: `save_strategy` writes the source file with content identical
to the artifact's `code` at the path it returns, writes a same-stem metadata
sidecar whose recorded `filename` is exactly that source path, and the source
extension is `py` for python and `cs` otherwise. -/
theorem c7_save_roundtrip (s : Strategy) (stem : String) :
    List.lookup (save_strategy s stem).1 (save_strategy s stem).2
        = some (FileContent.text s.code)
      ∧ List.lookup (outputDir ++ "/" ++ stem ++ ".json") (save_strategy s stem).2
        = some (FileContent.meta
            { description := s.description
              language := s.language
              timestamp := s.timestamp
              filename := (save_strategy s stem).1 })
      ∧ (save_strategy s stem).1
        = outputDir ++ "/" ++ stem ++ "."
            ++ (if s.language == "python" then "py" else "cs") := by
  have key : ∀ ext : String, ext.length = 2 →
      ((outputDir ++ "/" ++ stem ++ ".json")
        == (outputDir ++ "/" ++ stem ++ "." ++ ext)) = false := by
    intro ext hext
    apply string_beq_false_of_length_ne
    have h1 : (".json" : String).length = 5 := rfl
    have h2 : ("." : String).length = 1 := rfl
    simp only [String.length_append, h1, h2, hext]
    omega
  by_cases hl : s.language == "python"
  · refine ⟨?_, ?_, ?_⟩
    · simp [save_strategy, hl, List.lookup]
    · simp [save_strategy, hl, List.lookup, key "py" rfl]
    · simp [save_strategy, hl]
  · have hl2 : (s.language == "python") = false := by simpa using hl
    refine ⟨?_, ?_, ?_⟩
    · simp [save_strategy, hl2, List.lookup]
    · simp [save_strategy, hl2, List.lookup, key "cs" rfl]
    · simp [save_strategy, hl2]

/-- Claim C8: with the lint capability unavailable, `validate_strategy` is a
pure function of `(code, language)` — any two unavailable lint outcomes give
identical reports. -/
theorem c8_deterministic (code language : String) (e1 e2 : LintEnv)
    (h1 : lintUnavailable e1) (h2 : lintUnavailable e2) :
    validate_strategy code language e1 = validate_strategy code language e2 := by
  simp [validate_strategy, lintWarnings_of_unavailable e1 h1,
    lintWarnings_of_unavailable e2 h2]

/-- Claim C8, witness: two distinct unavailable lint outcomes on a concrete
input give the same report. -/
theorem c8_deterministic_witness :
    lintUnavailable LintEnv.writeFailed
      ∧ lintUnavailable LintEnv.timeout
      ∧ validate_strategy "x" "python" LintEnv.writeFailed
        = validate_strategy "x" "python" LintEnv.timeout :=
  ⟨Or.inl rfl, Or.inr (Or.inr rfl),
    c8_deterministic "x" "python" LintEnv.writeFailed LintEnv.timeout
      (Or.inl rfl) (Or.inr (Or.inr rfl))⟩

/-- Claim C9: the score of every report is 100 or 80 — it starts at 100 and
the only deduction, the python missing-`OnData` warning, subtracts 20 at most
once (so it is never negative and never below 80). -/
theorem c9_score_range (code language : String) (env : LintEnv) :
    (validate_strategy code language env).score = 100
      ∨ (validate_strategy code language env).score = 80 := by
  by_cases hl : language == "python"
  · by_cases hd : strContains code "def OnData(" <;> simp [validate_strategy, hl, hd]
  · by_cases hc : language == "csharp" <;> simp [validate_strategy, hl, hc]

/-- Claim C10: for any language other than `"python"` and `"csharp"`, no rule
applies and the report is always valid with no errors, no warnings and score
100, whatever the source text. -/
theorem c10_other_language (code language : String) (env : LintEnv)
    (h1 : language ≠ "python") (h2 : language ≠ "csharp") :
    validate_strategy code language env
      = { valid := true, errors := [], warnings := [], score := 100 } := by
  have b1 : (language == "python") = false := by simp [h1]
  have b2 : (language == "csharp") = false := by simp [h2]
  simp [validate_strategy, b1, b2]

/-- Claim C10, witness: an unsupported language string on a concrete source
text yields the trivial report. -/
theorem c10_other_language_witness :
    validate_strategy "anything" "java" LintEnv.toolMissing
      = { valid := true, errors := [], warnings := [], score := 100 } :=
  c10_other_language "anything" "java" LintEnv.toolMissing (by decide) (by decide)
